import Mathlib

/-!
# Verification of the rpi-etyper e-paper typewriter

Shallow embedding of the two source files of the repository:

* `epd42_driver.py` — the EPD42 display driver (SSD1683 controller).
  Driver operations are modelled as pure functions from a driver state
  (`EPDState`, holding the `_partial_count` and `_last_full_refresh`
  fields — the only instance state the refresh logic reads) and the
  current time to a pair of the new state and the list of SPI-level
  events the operation emits.  GPIO/SPI transport is abstracted to the
  event list: `_send_command` emits `cmd`, `_send_data` emits `dat`,
  `_send_data_bulk` emits one `bulk` event carrying the whole buffer
  (the 4096-byte chunking of the transfer is below the abstraction
  level of every claim).  Time is an integer; each public operation
  observes one time value (`now`), abstracting `time.time()`.

* `typewriter.py` — the EtyperApp orchestration layer.  The
  text-editing handler, the word-wrap cursor computation, and the
  Bluetooth PAN resource session are embedded below, each over an
  explicit environment describing the outcomes of external calls.
-/

/-- One SPI/GPIO-level event emitted by the driver. -/
inductive SpiEv where
  | cmd (b : Nat)
  | dat (b : Nat)
  | bulk (buf : List Nat)
  | waitBusy
  | rstLow
  | rstHigh
  | pauseMs (ms : Nat)
  deriving DecidableEq, Repr

/-- The refresh-policy state of the driver: `_partial_count` and
`_last_full_refresh` from `EPD42.__init__`. -/
structure EPDState where
  partialCount : Nat
  lastFullRefresh : Int
  deriving DecidableEq, Repr

/-- `self._full_refresh_interval = 300` (seconds). -/
def fullRefreshInterval : Int := 300

namespace EPD42

/-- `_send_command`. -/
def send_command (c : Nat) : List SpiEv := [.cmd c]

/-- `_send_data`. -/
def send_data (v : Nat) : List SpiEv := [.dat v]

/-- `_send_data_bulk` (chunking abstracted into one event). -/
def send_data_bulk (b : List Nat) : List SpiEv := [.bulk b]

/-- `_set_window`: RAM window to full screen. -/
def set_window : List SpiEv :=
  send_command 0x44 ++ send_data 0x00 ++ send_data 0x31 ++
  send_command 0x45 ++ send_data 0x00 ++ send_data 0x00 ++ send_data 0x2B ++ send_data 0x01

/-- `_set_cursor`: RAM cursor to (0, 0). -/
def set_cursor : List SpiEv :=
  send_command 0x4E ++ send_data 0x00 ++
  send_command 0x4F ++ send_data 0x00 ++ send_data 0x00

/-- `reset`: pulse the RST line, settle, wait busy (events only; the
discarded `_wait_busy` flag is modelled separately for the timeout claim). -/
def reset : List SpiEv :=
  [.rstLow, .pauseMs 50, .rstHigh, .pauseMs 50, .waitBusy]

/-- `init`: full-refresh initialisation.  Does not touch
`_partial_count` or `_last_full_refresh`. -/
def init (s : EPDState) : EPDState × List SpiEv :=
  (s, reset ++
      send_command 0x12 ++ [.pauseMs 100, .waitBusy] ++
      send_command 0x21 ++ send_data 0x40 ++ send_data 0x00 ++
      send_command 0x3C ++ send_data 0x05 ++
      send_command 0x11 ++ send_data 0x03 ++
      set_window ++ set_cursor ++ [.waitBusy])

/-- `init_partial`: `init()` then border-waveform / update-control for
partial mode; resets `_partial_count` and `_last_full_refresh`. -/
def initPartial (s : EPDState) (now : Int) : EPDState × List SpiEv :=
  let (s1, t1) := init s
  ({ s1 with partialCount := 0, lastFullRefresh := now },
   t1 ++ send_command 0x3C ++ send_data 0x80 ++
   send_command 0x21 ++ send_data 0x00 ++ send_data 0x00)

/-- `display`: write buffer to both RAM planes, full-update activation,
wait busy; resets `_partial_count` and `_last_full_refresh`. -/
def display (_s : EPDState) (now : Int) (buf : List Nat) : EPDState × List SpiEv :=
  ({ partialCount := 0, lastFullRefresh := now },
   send_command 0x24 ++ send_data_bulk buf ++
   send_command 0x26 ++ send_data_bulk buf ++
   send_command 0x22 ++ send_data 0xF7 ++
   send_command 0x20 ++ [.waitBusy])

/-- The command sequence of the normal (non-redirected) branch of
`display_partial`: border waveform, update control, window, cursor,
new-RAM write, partial activation, busy wait, then old-RAM sync. -/
def partialUpdateTrace (buf : List Nat) : List SpiEv :=
  send_command 0x3C ++ send_data 0x80 ++
  send_command 0x21 ++ send_data 0x00 ++ send_data 0x00 ++
  set_window ++ set_cursor ++
  send_command 0x24 ++ send_data_bulk buf ++
  send_command 0x22 ++ send_data 0xFF ++
  send_command 0x20 ++ [.waitBusy] ++
  set_cursor ++
  send_command 0x26 ++ send_data_bulk buf

/-- `display_partial`: increments `_partial_count`, then either the
time-based transparent full-refresh redirect (`init`, `display`,
`init_partial`) or the normal partial update. -/
def displayPartial (s : EPDState) (now : Int) (buf : List Nat) : EPDState × List SpiEv :=
  let s := { s with partialCount := s.partialCount + 1 }
  if fullRefreshInterval ≤ now - s.lastFullRefresh then
    let (s, t1) := init s
    let (s, t2) := display s now buf
    let (s, t3) := initPartial s now
    (s, t1 ++ t2 ++ t3)
  else
    (s, partialUpdateTrace buf)

/-- `full_refresh`: `init()`, `display(buffer)`, `init_partial()`. -/
def full_refresh (s : EPDState) (now : Int) (buf : List Nat) : EPDState × List SpiEv :=
  let (s, t1) := init s
  let (s, t2) := display s now buf
  let (s, t3) := initPartial s now
  (s, t1 ++ t2 ++ t3)

/-- `sleep`: deep-sleep command.  Note: changes no recorded state. -/
def sleep (s : EPDState) : EPDState × List SpiEv :=
  (s, send_command 0x10 ++ send_data 0x01)

end EPD42

/-- Run a sequence of `display_partial` calls (same buffer, one
observed time per call), accumulating the emitted events. -/
def run_partials (buf : List Nat) : EPDState → List Int → EPDState × List SpiEv
  | s, [] => (s, [])
  | s, t :: ts =>
    let (s1, tr1) := EPD42.displayPartial s t buf
    let (s2, tr2) := run_partials buf s1 ts
    (s2, tr1 ++ tr2)

/-!
## `_wait_busy` and `reset` (timeout behaviour)

`_wait_busy(timeout=30)` polls the BUSY line every 10 ms and gives up
once the elapsed time exceeds the timeout, returning `False`; it
returns `True` as soon as the line reads low.  We model the busy line
as a function from the poll index to its level, and use the idealised
timing in which the k-th poll happens k ticks (of 10 ms) after the
start, so the `time.time() - start > timeout` test at poll k is
`3000 < k`.  The `fuel` argument is a structural-recursion bound only:
it is chosen (3002) so that the time test always fires first, hence
the fuel-exhaustion branch is unreachable. -/
def wait_busy_aux (busyAt : Nat → Bool) (timeoutTicks : Nat) : Nat → Nat → Bool × Nat
  | 0, k => (false, k)
  | fuel + 1, k =>
    if busyAt k then
      if timeoutTicks < k then (false, k)
      else wait_busy_aux busyAt timeoutTicks fuel (k + 1)
    else (true, k)

/-- `_wait_busy` with the default 30 s timeout (3000 ticks of 10 ms).
Returns the flag and the index of the poll at which the loop exited. -/
def wait_busy (busyAt : Nat → Bool) : Bool × Nat :=
  wait_busy_aux busyAt 3000 3002 0

/-- The outcome `reset()` presents to its caller. -/
inductive ResetOutcome where
  | normal
  | hardwareTimeout
  deriving DecidableEq, Repr

/-- `reset()`: pulses RST, sleeps, then calls `self._wait_busy()`
as a bare statement — the returned flag is discarded — and falls off
the end of the function (a plain `None` return) whatever happened. -/
def reset_result (busyAt : Nat → Bool) : ResetOutcome :=
  let _flag := wait_busy busyAt
  ResetOutcome.normal

/-!
## Operation histories (for the display-state totality claim)

The driver keeps no mode/initialisation state; to express that its
operations behave identically after any prior operation history, we
run an arbitrary list of driver calls. -/
inductive EPDOp where
  | opInit
  | opInitPartial (now : Int)
  | opDisplay (now : Int) (buf : List Nat)
  | opDisplayPartial (now : Int) (buf : List Nat)
  | opFullRefresh (now : Int) (buf : List Nat)
  | opSleep
  deriving Repr

/-- Execute one driver call. -/
def stepOp (s : EPDState) : EPDOp → EPDState × List SpiEv
  | .opInit => EPD42.init s
  | .opInitPartial now => EPD42.initPartial s now
  | .opDisplay now buf => EPD42.display s now buf
  | .opDisplayPartial now buf => EPD42.displayPartial s now buf
  | .opFullRefresh now buf => EPD42.full_refresh s now buf
  | .opSleep => EPD42.sleep s

/-- Execute a history of driver calls. -/
def runOps : EPDState → List EPDOp → EPDState × List SpiEv
  | s, [] => (s, [])
  | s, op :: ops =>
    let (s1, tr1) := stepOp s op
    let (s2, tr2) := runOps s1 ops
    (s2, tr1 ++ tr2)

/-!
## `EtyperApp._handle_key`: text editing

The editing state is the `(self.text, self.cursor, self.dirty,
self.needs_display_update)` quadruple; text is a list of characters
(Python strings index by code point).  The embedded events are the
key branches of `_handle_key` that edit the buffer or move the cursor
by one position; `insert` covers the final keymap branch, whose
inserted string may be several characters long (Tab inserts four
spaces). -/
structure EditorState where
  text : List Char
  cursor : Nat
  dirty : Bool
  needsDisplayUpdate : Bool
  deriving DecidableEq, Repr

inductive EditKey where
  | left
  | right
  | enter
  | backspace
  | delete
  | insert (chars : List Char)
  deriving DecidableEq, Repr

/-- `_handle_key` restricted to the buffer-editing branches
(KEY_LEFT, KEY_RIGHT, KEY_ENTER, KEY_BACKSPACE, KEY_DELETE, and the
keymap character-insertion branch), for a key press. -/
def handle_key (s : EditorState) : EditKey → EditorState
  | .left =>
    if 0 < s.cursor then
      { s with cursor := s.cursor - 1, needsDisplayUpdate := true }
    else s
  | .right =>
    if s.cursor < s.text.length then
      { s with cursor := s.cursor + 1, needsDisplayUpdate := true }
    else s
  | .enter =>
    { s with text := s.text.take s.cursor ++ '\n' :: s.text.drop s.cursor,
             cursor := s.cursor + 1, dirty := true, needsDisplayUpdate := true }
  | .backspace =>
    if 0 < s.cursor then
      { s with text := s.text.take (s.cursor - 1) ++ s.text.drop s.cursor,
               cursor := s.cursor - 1, dirty := true, needsDisplayUpdate := true }
    else s
  | .delete =>
    if s.cursor < s.text.length then
      { s with text := s.text.take s.cursor ++ s.text.drop (s.cursor + 1),
               dirty := true, needsDisplayUpdate := true }
    else s
  | .insert cs =>
    { s with text := s.text.take s.cursor ++ cs ++ s.text.drop s.cursor,
             cursor := s.cursor + cs.length, dirty := true, needsDisplayUpdate := true }

/-!
## Bluetooth PAN session: `_start_bt_pan` / `_stop_bt_pan`

The session value returned by `_start_bt_pan` is a dict of seven
handles; we model it as a structure of optional handle ids.  External
calls (D-Bus, subprocess) are modelled through an environment stating
which of them raises (or, for bridge creation, returns a nonzero
exit code). -/
structure BtState where
  bus : Option Nat
  agent : Option Nat
  mgr : Option Nat
  props : Option Nat
  net_server : Option Nat
  dnsmasq : Option Nat
  loop : Option Nat
  deriving DecidableEq, Repr

/-- Which of the individually wrapped teardown steps raise, plus the
unwrapped step 7 (bridge removal subprocess call). -/
structure TeardownEnv where
  dnsmasqTerminateRaises : Bool
  loopQuitRaises : Bool
  napUnregisterRaises : Bool
  adapterConfigRaises : Bool
  agentUnregisterRaises : Bool
  disconnectRaises : Bool
  bridgeDelRaises : Bool
  powerOffRaises : Bool
  deriving DecidableEq, Repr

/-- `_stop_bt_pan(state)`.  Returns the session value (the function
never writes to the dict), the list of release steps that were
attempted (numbered 1-8 as in the source comments), the list of steps
whose caught exception produced a printed warning, and whether an
exception escaped the function.  Steps 1-5 are wrapped in their own
try/except; step 6 (`_bt_disconnect_all`) and step 8 (`_bt_power_off`)
swallow exceptions internally (step 8 silently); step 7 — the
`subprocess.run(["ip", "link", "del", ...])` bridge removal — is the
single step with no wrapper, so if that call raises, step 8 is never
reached and the exception propagates. -/
def stop_bt_pan (st : BtState) (env : TeardownEnv) :
    BtState × List Nat × List Nat × Bool :=
  let w1 : List Nat := if env.dnsmasqTerminateRaises then [1] else []
  let w2 : List Nat := if env.loopQuitRaises then [2] else []
  let w3 : List Nat := if env.napUnregisterRaises then [3] else []
  let w4 : List Nat := if env.adapterConfigRaises then [4] else []
  let w5 : List Nat := if env.agentUnregisterRaises then [5] else []
  let w6 : List Nat := if env.disconnectRaises then [6] else []
  let warns := w1 ++ w2 ++ w3 ++ w4 ++ w5 ++ w6
  if env.bridgeDelRaises then
    (st, [1, 2, 3, 4, 5, 6, 7], warns, true)
  else
    (st, [1, 2, 3, 4, 5, 6, 7, 8], warns, false)

/-- The system-level resources whose liveness `_start_bt_pan` /
`_stop_bt_pan` govern. -/
structure Resources where
  powered : Bool
  agentRegistered : Bool
  discoverable : Bool
  pairable : Bool
  bridge : Bool
  napRegistered : Bool
  dnsmasqRunning : Bool
  deriving DecidableEq, Repr

/-- Outcomes of the acquisition steps of `_start_bt_pan`, in source
order: power-on `props.Set`, `RegisterAgent`, `RequestDefaultAgent`,
the discoverable/pairable `props.Set` block (modelled as raising at
its first call), the `ip link add` bridge creation (nonzero exit
code — the one failure the source tests explicitly), the NAP
`Register`, and the dnsmasq `Popen`. -/
structure PanEnv where
  powerOnRaises : Bool
  registerAgentRaises : Bool
  requestDefaultRaises : Bool
  adapterConfigRaises : Bool
  bridgeAddFails : Bool
  napRegisterRaises : Bool
  dnsmasqSpawnRaises : Bool
  deriving DecidableEq, Repr

/-- The `except Exception` handler at the end of `_start_bt_pan`:
terminate dnsmasq if it was started (a NameError from an unassigned
local is swallowed by the inner try), `ip link del` the bridge, and
power the adapter off.  It does not unregister the agent and does not
reset the discoverable/pairable adapter configuration. -/
def panExceptHandler (r : Resources) : Option BtState × Resources :=
  (none, { r with dnsmasqRunning := false, bridge := false, powered := false })

/-- `_start_bt_pan()`: acquires the resources in source order,
returning the session dict, or `none` on failure, together with
which system resources are left alive.  On a nonzero exit code from
bridge creation the source unregisters the agent and returns `None`
directly (no other cleanup); every raising step lands in the
`except` handler `panExceptHandler`. -/
def start_bt_pan (env : PanEnv) : Option BtState × Resources :=
  let r : Resources := ⟨false, false, false, false, false, false, false⟩
  if env.powerOnRaises then panExceptHandler r else
  let r := { r with powered := true }
  if env.registerAgentRaises then panExceptHandler r else
  let r := { r with agentRegistered := true }
  if env.requestDefaultRaises then panExceptHandler r else
  if env.adapterConfigRaises then panExceptHandler r else
  let r := { r with discoverable := true, pairable := true }
  if env.bridgeAddFails then
    (none, { r with agentRegistered := false })
  else
  let r := { r with bridge := true }
  if env.napRegisterRaises then panExceptHandler r else
  let r := { r with napRegistered := true }
  if env.dnsmasqSpawnRaises then panExceptHandler r else
  let r := { r with dnsmasqRunning := true }
  (some ⟨some 0, some 1, some 2, some 3, some 4, some 5, some 6⟩, r)

/-- A secondary resource in the sense of the resource-session
contract (the adapter power state itself is not in the contract's
list). -/
def secondaryAlive (r : Resources) : Bool :=
  r.agentRegistered || r.discoverable || r.pairable || r.bridge ||
  r.napRegistered || r.dnsmasqRunning

/-!
## `_file_server_mode` and `_resume_typewriter_display`

The display-relevant control flow of file-server mode, over an
environment recording whether D-Bus support is present, whether
`_start_bt_pan` succeeded, and whether `_start_file_server(443)`
returned a server.  The output is the sequence of display operations
the mode performs. -/
inductive Screen where
  | instructions
  | document
  deriving DecidableEq, Repr

inductive DispCall where
  | init
  | initPartial
  | displayBuf (s : Screen)
  | sleepSec (n : Nat)
  deriving DecidableEq, Repr

structure FSEnv where
  hasDbus : Bool
  btPanOk : Bool
  httpsOk : Bool
  deriving DecidableEq, Repr

/-- `_resume_typewriter_display()`: sleep 1 s, `init()`, full
`display()` of the rendered current document, `init_partial()`. -/
def resume_typewriter_display : List DispCall :=
  [.sleepSec 1, .init, .displayBuf .document, .initPartial]

/-- `_file_server_mode()`: if D-Bus is missing, return at once;
otherwise `init()` + full `display()` of the instructions screen,
then start the PAN.  If the PAN fails, resume the typewriter display
and return.  Inside the try block, if the HTTPS server fails to
start, the `return` runs the `finally` teardown (which performs no
display operations) and leaves the function — skipping the
`_resume_typewriter_display()` call that follows the try statement.
On the normal path (Ctrl+F or timeout) the resume call runs. -/
def file_server_mode (env : FSEnv) : List DispCall :=
  if env.hasDbus = false then []
  else
    let shown := [DispCall.init, DispCall.displayBuf Screen.instructions]
    if env.btPanOk = false then shown ++ resume_typewriter_display
    else if env.httpsOk = false then shown
    else shown ++ resume_typewriter_display

/-- The mode ends with the display re-initialised to the
partial-refresh baseline showing the document. -/
def endsResumed (tr : List DispCall) : Bool :=
  resume_typewriter_display.isSuffixOf tr

/-!
## `EtyperApp._wrap_with_cursor`

The word-wrap computation.  `textwrap.wrap` (Python standard library,
an external collaborator per the spec) is a parameter
`wrapFn : List Char → List (List Char)`; every theorem below holds for
an arbitrary wrap function.  The accumulating state mirrors the local
variables `lines`, `char_to_pos` (a dict — later assignments win, so
lookups take the last binding), `line_idx` and `para_start`. -/
structure WrapSt where
  lines : List (List Char)
  charToPos : List (Nat × Nat × Nat)
  lineIdx : Nat
  paraStart : Nat
  deriving Repr

/-- `text.split("\n")` on a character list: always at least one
(possibly empty) paragraph. -/
def splitNl : List Char → List (List Char)
  | [] => [[]]
  | c :: cs =>
    let r := splitNl cs
    if c = '\n' then [] :: r
    else (c :: r.headD []) :: r.tail

/-- Dict lookup with Python semantics: the most recent assignment for
the key wins. -/
def lookupLast (m : List (Nat × Nat × Nat)) (k : Nat) : Option (Nat × Nat) :=
  match m with
  | [] => none
  | e :: rest =>
    match lookupLast rest k with
    | some v => some v
    | none => if e.1 = k then some (e.2.1, e.2.2) else none

/-- The body of the `for w_line in wrapped` loop: record a position for
every character of the wrapped line, account for the space consumed by
wrapping, append the line, advance `line_idx`.  The second component
of the accumulator is `para_char`. -/
def procLine (p : List Char) (acc : WrapSt × Nat) (wline : List Char) : WrapSt × Nat :=
  let st := acc.1
  let paraChar := acc.2
  let colEntries := (List.range wline.length).map
    (fun col => (st.paraStart + paraChar + col, st.lineIdx, col))
  let paraChar := paraChar + wline.length
  let spaceEntries : List (Nat × Nat × Nat) :=
    if paraChar < p.length ∧ p.getD paraChar '\x00' = ' ' then
      [(st.paraStart + paraChar, st.lineIdx, wline.length)]
    else []
  let paraChar :=
    if paraChar < p.length ∧ p.getD paraChar '\x00' = ' ' then paraChar + 1
    else paraChar
  ({ lines := st.lines ++ [wline],
     charToPos := st.charToPos ++ colEntries ++ spaceEntries,
     lineIdx := st.lineIdx + 1,
     paraStart := st.paraStart }, paraChar)

/-- Process one paragraph (`isLast` is false when another paragraph —
hence a terminating newline — follows).  The empty paragraph appends
an empty line (mapping the newline to its start when one follows);
a non-empty paragraph is wrapped (an empty wrap result is replaced by
`[""]`), each wrapped line processed by `procLine`, and the
terminating newline mapped to the end of the last appended line. -/
def procPara (wrapFn : List Char → List (List Char)) (st : WrapSt)
    (p : List Char) (isLast : Bool) : WrapSt :=
  if p = [] then
    { lines := st.lines ++ [[]],
      charToPos := st.charToPos ++
        (if isLast then [] else [(st.paraStart, st.lineIdx, 0)]),
      lineIdx := st.lineIdx + 1,
      paraStart := st.paraStart + 1 }
  else
    let wrapped := wrapFn p
    let wrapped := if wrapped = [] then [[]] else wrapped
    let st1 := (wrapped.foldl (procLine p) (st, 0)).1
    let st2 :=
      if isLast then st1
      else { st1 with charToPos := st1.charToPos ++
              [(st.paraStart + p.length, st1.lineIdx - 1, (st1.lines.getLastD []).length)] }
    { st2 with paraStart := st.paraStart + p.length + 1 }

/-- The `for p_idx, para in enumerate(paragraphs)` loop. -/
def procParas (wrapFn : List Char → List (List Char)) :
    WrapSt → List (List Char) → WrapSt
  | st, [] => st
  | st, [p] => procPara wrapFn st p true
  | st, p :: q :: rest => procParas wrapFn (procPara wrapFn st p false) (q :: rest)

/-- `_wrap_with_cursor`: returns `(lines, cursor_line, cursor_col)`.
After the paragraph loop, an empty `lines` is replaced by `[""]`; a
cursor at or past the end of the text (or one missed by the position
map) is placed at the end of the last line. -/
def wrap_with_cursor (wrapFn : List Char → List (List Char))
    (text : List Char) (cursor : Nat) : List (List Char) × Nat × Nat :=
  let st := procParas wrapFn ⟨[], [], 0, 0⟩ (splitNl text)
  let lines := if st.lines = [] then [[]] else st.lines
  if text.length ≤ cursor then
    if lines ≠ [] then (lines, lines.length - 1, (lines.getLastD []).length)
    else (lines, 0, 0)
  else
    match lookupLast st.charToPos cursor with
    | some lc => (lines, lc.1, lc.2)
    | none => (lines, lines.length - 1, (lines.getLastD []).length)

/-- Every recorded cursor position is in range of the accumulated
lines, and `line_idx` tracks the number of accumulated lines. -/
def stOK (st : WrapSt) : Prop :=
  st.lineIdx = st.lines.length ∧
  ∀ e ∈ st.charToPos,
    e.2.1 < st.lines.length ∧ e.2.2 ≤ (st.lines.getD e.2.1 []).length

/-!
## Helper lemmas
-/

lemma run_partials_below_interval (buf : List Nat) (now : Int) :
    ∀ (ts : List Int) (c : Nat), (∀ t ∈ ts, t - now < 300) →
      run_partials buf ⟨c, now⟩ ts
        = (⟨c + ts.length, now⟩, (ts.map fun _ => EPD42.partialUpdateTrace buf).flatten) := by
  intro ts
  induction ts with
  | nil => intro c _; simp [run_partials]
  | cons t ts ih =>
    intro c h
    have ht : t - now < 300 := h t (by simp)
    have hts : ∀ u ∈ ts, u - now < 300 := fun u hu => h u (by simp [hu])
    have hcond : ¬ fullRefreshInterval ≤ t - now := by
      simp only [fullRefreshInterval]; omega
    simp only [run_partials, EPD42.displayPartial, hcond, if_false, ih (c + 1) hts,
      List.map_cons, List.flatten]
    refine Prod.ext ?_ rfl
    simp only [List.length_cons]
    congr 1
    omega

lemma wait_busy_aux_exit_le (busyAt : Nat → Bool) (t : Nat) :
    ∀ (fuel k : Nat), (wait_busy_aux busyAt t fuel k).2 ≤ max k (t + 1) := by
  intro fuel
  induction fuel with
  | zero => intro k; simp [wait_busy_aux]
  | succ fuel ih =>
    intro k
    simp only [wait_busy_aux]
    by_cases hb : busyAt k
    · simp only [hb, if_true]
      by_cases hk : t < k
      · simp [hk]
      · simp only [hk, if_false]
        have h1 := ih (k + 1)
        have hk' : k ≤ t := Nat.not_lt.mp hk
        omega
    · simp [hb]

lemma wait_busy_aux_stuck (busyAt : Nat → Bool) (t : Nat)
    (hbusy : ∀ k, busyAt k = true) :
    ∀ (fuel k : Nat), t + 2 ≤ k + fuel → k ≤ t + 1 →
      wait_busy_aux busyAt t fuel k = (false, t + 1) := by
  intro fuel
  induction fuel with
  | zero => intro k h1 h2; omega
  | succ fuel ih =>
    intro k h1 h2
    simp only [wait_busy_aux, hbusy k, if_true]
    by_cases hk : t < k
    · have : k = t + 1 := by omega
      simp [hk, this]
    · simp only [hk, if_false]
      exact ih (k + 1) (by omega) (by omega)

lemma getLastD_eq_getD {α : Type} (l : List α) (d : α) (h : l ≠ []) :
    l.getLastD d = l.getD (l.length - 1) d := by
  induction l generalizing d with
  | nil => exact absurd rfl h
  | cons x t ih =>
    cases t with
    | nil => rfl
    | cons y u =>
      have h2 : (y :: u : List α) ≠ [] := by simp
      show (y :: u).getLastD x = _
      rw [ih x h2]
      have hlen : (y :: u).length - 1 < (y :: u).length := by simp
      rw [List.getD_eq_getElem (y :: u) x hlen]
      have hidx : (x :: y :: u).length - 1 = u.length + 1 := by simp
      rw [hidx]
      rw [show ((x :: y :: u).getD (u.length + 1) d = (y :: u).getD u.length d) from rfl]
      have hlen2 : u.length < (y :: u).length := by simp
      rw [List.getD_eq_getElem (y :: u) d hlen2]
      simp

/-- An entry valid for `lines` stays valid when a line is appended. -/
lemma entry_ok_append (lines : List (List Char)) (w : List Char)
    (e : Nat × Nat × Nat)
    (h : e.2.1 < lines.length ∧ e.2.2 ≤ (lines.getD e.2.1 []).length) :
    e.2.1 < (lines ++ [w]).length ∧
    e.2.2 ≤ ((lines ++ [w]).getD e.2.1 []).length := by
  obtain ⟨h1, h2⟩ := h
  refine ⟨by simp; omega, ?_⟩
  rwa [List.getD_append _ _ _ _ h1]

lemma procLine_ok (p : List Char) (st : WrapSt) (pc : Nat) (w : List Char)
    (h : stOK st) :
    stOK (procLine p (st, pc) w).1 ∧
    (procLine p (st, pc) w).1.lines = st.lines ++ [w] := by
  obtain ⟨hidx, hmap⟩ := h
  have hget : (st.lines ++ [w]).getD st.lines.length [] = w := by
    rw [List.getD_append_right _ _ _ _ (le_refl _)]
    simp
  refine ⟨⟨by simp [procLine, hidx], ?_⟩, by simp [procLine]⟩
  intro e he
  have hres : (procLine p (st, pc) w).1.lines = st.lines ++ [w] := by
    simp [procLine]
  rw [hres]
  by_cases hsp : pc + w.length < p.length ∧ p.getD (pc + w.length) '\x00' = ' '
  · simp only [procLine, if_pos hsp, List.mem_append] at he
    rcases he with (he | he) | he
    · exact entry_ok_append st.lines w e (hmap e he)
    · simp only [List.mem_map, List.mem_range] at he
      obtain ⟨col, hcol, rfl⟩ := he
      exact ⟨by simp [hidx], by simp only [hidx, hget]; omega⟩
    · simp only [List.mem_singleton] at he
      subst he
      exact ⟨by simp [hidx], by simp only [hidx, hget]; omega⟩
  · simp only [procLine, if_neg hsp, List.mem_append] at he
    rcases he with (he | he) | he
    · exact entry_ok_append st.lines w e (hmap e he)
    · simp only [List.mem_map, List.mem_range] at he
      obtain ⟨col, hcol, rfl⟩ := he
      exact ⟨by simp [hidx], by simp only [hidx, hget]; omega⟩
    · simp at he

lemma lookupLast_mem (m : List (Nat × Nat × Nat)) (k : Nat) (v : Nat × Nat)
    (h : lookupLast m k = some v) : (k, v.1, v.2) ∈ m := by
  induction m with
  | nil => simp [lookupLast] at h
  | cons e rest ih =>
    simp only [lookupLast] at h
    cases hr : lookupLast rest k with
    | some v2 =>
      rw [hr] at h
      have hv : v2 = v := by simpa using h
      subst hv
      exact List.mem_cons_of_mem e (ih hr)
    | none =>
      rw [hr] at h
      change (if e.1 = k then some (e.2.1, e.2.2) else none) = some v at h
      by_cases hk : e.1 = k
      · rw [if_pos hk] at h
        have hv : (e.2.1, e.2.2) = v := by injection h
        have he : e = (k, v.1, v.2) := by
          obtain ⟨e1, e2, e3⟩ := e
          simp only at hk hv ⊢
          obtain ⟨hv1, hv2⟩ := Prod.mk.injEq .. ▸ hv
          simp_all
        rw [← he]
        exact List.mem_cons_self e rest
      · rw [if_neg hk] at h
        exact absurd h (by simp)

lemma foldl_procLine_ok (p : List Char) (ws : List (List Char)) :
    ∀ (st : WrapSt) (pc : Nat), stOK st →
      stOK (ws.foldl (procLine p) (st, pc)).1 ∧
      (ws.foldl (procLine p) (st, pc)).1.lines.length
        = st.lines.length + ws.length := by
  induction ws with
  | nil => intro st pc h; exact ⟨h, by simp⟩
  | cons w ws ih =>
    intro st pc h
    obtain ⟨h1, h2⟩ := procLine_ok p st pc w h
    have heta : procLine p (st, pc) w
        = ((procLine p (st, pc) w).1, (procLine p (st, pc) w).2) := rfl
    have := ih (procLine p (st, pc) w).1 (procLine p (st, pc) w).2 h1
    simp only [List.foldl_cons]
    rw [heta] at *
    refine ⟨this.1, ?_⟩
    rw [this.2, h2]
    simp
    omega

lemma procPara_ok (wrapFn : List Char → List (List Char)) (st : WrapSt)
    (p : List Char) (isLast : Bool) (h : stOK st) :
    stOK (procPara wrapFn st p isLast) := by
  by_cases hp : p = []
  · obtain ⟨hidx, hmap⟩ := h
    have hget : (st.lines ++ [[]]).getD st.lines.length [] = [] := by
      rw [List.getD_append_right _ _ _ _ (le_refl _)]
      simp
    simp only [procPara, if_pos hp]
    refine ⟨by simp [hidx], ?_⟩
    intro e he
    simp only [List.mem_append] at he
    rcases he with he | he
    · exact entry_ok_append st.lines [] e (hmap e he)
    · cases isLast with
      | true => simp at he
      | false =>
        simp only [if_neg (Bool.false_ne_true), List.mem_singleton] at he
        subst he
        exact ⟨by simp [hidx], by simp [hidx, hget]⟩
  · simp only [procPara, if_neg hp]
    have hw : (if wrapFn p = [] then [[]] else wrapFn p) ≠ [] := by
      by_cases hwp : wrapFn p = [] <;> simp [hwp]
    obtain ⟨⟨hidx1, hmap1⟩, hlen1⟩ :=
      foldl_procLine_ok p (if wrapFn p = [] then [[]] else wrapFn p) st 0 h
    have hpos : 0 <
        ((if wrapFn p = [] then [[]] else wrapFn p).foldl (procLine p) (st, 0)).1.lines.length := by
      rw [hlen1]
      have : (if wrapFn p = [] then [[]] else wrapFn p).length ≠ 0 := by
        simpa [List.length_eq_zero] using hw
      omega
    cases isLast with
    | true =>
      exact ⟨hidx1, hmap1⟩
    | false =>
      simp only [if_neg (Bool.false_ne_true)]
      refine ⟨hidx1, ?_⟩
      intro e he
      simp only [List.mem_append] at he
      rcases he with he | he
      · exact hmap1 e he
      · simp only [List.mem_singleton] at he
        subst he
        have hne : ((if wrapFn p = [] then [[]] else wrapFn p).foldl
            (procLine p) (st, 0)).1.lines ≠ [] := by
          intro hcon
          rw [hcon] at hpos
          simp at hpos
        refine ⟨by simp only [hidx1]; omega, ?_⟩
        simp only [hidx1]
        rw [getLastD_eq_getD _ _ hne]

lemma procParas_ok (wrapFn : List Char → List (List Char)) :
    ∀ (ps : List (List Char)) (st : WrapSt), stOK st →
      stOK (procParas wrapFn st ps) := by
  intro ps
  induction ps with
  | nil => intro st h; exact h
  | cons p rest ih =>
    intro st h
    cases rest with
    | nil => exact procPara_ok wrapFn st p true h
    | cons q rest2 => exact ih (procPara wrapFn st p false) (procPara_ok wrapFn st p false h)

/-!
## Claim theorems
-/

/-- C1: for every valid-length buffer, after a full `display`, any sequence
of `display_partial` calls whose times are strictly within the 300-second
interval of the refresh takes the normal partial-update branch (the emitted
events are exactly the concatenated partial-update sequences and the
recorded refresh time never moves), and whenever the elapsed time has
reached the interval, `display_partial` performs exactly the operation
sequence of `full_refresh` (`init`, `display(buffer)`, `init_partial`),
ending in the same state. -/
theorem C1_renderPartial_policy (buf : List Nat) (hbuf : buf.length = 15000) :
    (∀ (s0 : EPDState) (now : Int) (ts : List Int),
      (∀ t ∈ ts, t - now < 300) →
      run_partials buf (EPD42.display s0 now buf).1 ts
        = (⟨ts.length, now⟩, (ts.map fun _ => EPD42.partialUpdateTrace buf).flatten))
    ∧ (∀ (s : EPDState) (now : Int),
      fullRefreshInterval ≤ now - s.lastFullRefresh →
      EPD42.displayPartial s now buf = EPD42.full_refresh s now buf) := by
  refine ⟨?_, ?_⟩
  · intro s0 now ts h
    have hr := run_partials_below_interval buf now ts 0 h
    simpa [EPD42.display] using hr
  · intro s now h
    simp only [EPD42.displayPartial, EPD42.full_refresh, EPD42.init,
      EPD42.display, EPD42.initPartial, if_pos h]

/-- Witness for C1: a concrete all-white 15000-byte buffer, two partial
updates 10 and 20 seconds after a full refresh at time 0, and a redirected
call exactly at the 300-second mark. -/
theorem C1_renderPartial_policy_witness :
    run_partials (List.replicate 15000 255)
        ((EPD42.display ⟨7, 0⟩ 0 (List.replicate 15000 255)).1) [10, 20]
      = (⟨2, 0⟩, (([10, 20] : List Int).map
          fun _ => EPD42.partialUpdateTrace (List.replicate 15000 255)).flatten)
    ∧ EPD42.displayPartial ⟨5, 0⟩ 300 (List.replicate 15000 255)
      = EPD42.full_refresh ⟨5, 0⟩ 300 (List.replicate 15000 255) := by
  have h := C1_renderPartial_policy (List.replicate 15000 255)
    (List.length_replicate 15000 255)
  exact ⟨h.1 ⟨7, 0⟩ 0 [10, 20] (by decide), h.2 ⟨5, 0⟩ 300 (by decide)⟩

/-- C8: for every valid-length buffer, `display` writes the buffer to the
current RAM plane (0x24) then the previous RAM plane (0x26), issues
display-update-control2 (0x22) with data 0xF7 and activate-update (0x20),
waits for busy-clear, and resets the partial counter to 0 and the
last-full-refresh timestamp to the current time. -/
theorem C8_display_spec (s : EPDState) (now : Int) (buf : List Nat)
    (hbuf : buf.length = 15000) :
    EPD42.display s now buf =
      ({ partialCount := 0, lastFullRefresh := now },
       [SpiEv.cmd 0x24, SpiEv.bulk buf, SpiEv.cmd 0x26, SpiEv.bulk buf,
        SpiEv.cmd 0x22, SpiEv.dat 0xF7, SpiEv.cmd 0x20, SpiEv.waitBusy]) := rfl

/-- Witness for C8 at a concrete state, time and all-white buffer. -/
theorem C8_display_spec_witness :
    EPD42.display ⟨3, 17⟩ 42 (List.replicate 15000 255) =
      ({ partialCount := 0, lastFullRefresh := 42 },
       [SpiEv.cmd 0x24, SpiEv.bulk (List.replicate 15000 255),
        SpiEv.cmd 0x26, SpiEv.bulk (List.replicate 15000 255),
        SpiEv.cmd 0x22, SpiEv.dat 0xF7, SpiEv.cmd 0x20, SpiEv.waitBusy]) :=
  C8_display_spec ⟨3, 17⟩ 42 (List.replicate 15000 255) (List.length_replicate 15000 255)

/-- C2 counterexample: with a busy line that never clears, `reset()`
returns the plain normal result — `_wait_busy`'s failure flag is discarded,
so the caller receives no HardwareTimeout error, indistinguishable from
success. -/
theorem C2_reset_counterexample :
    reset_result (fun _ => true) = ResetOutcome.normal ∧
    reset_result (fun _ => true) ≠ ResetOutcome.hardwareTimeout := by
  exact ⟨rfl, by decide⟩

/-- C2 amended: the busy wait does terminate within the 30 s timeout plus
one 10 ms poll — with a never-clearing busy line it gives up at poll 3001
(30.01 s in the idealised 10 ms-per-poll timing) returning the `False`
flag, and no busy behaviour can keep it past poll 3001 — but `reset()`
discards the flag and returns normally for every busy behaviour. -/
theorem C2_reset_terminates_silently :
    wait_busy (fun _ => true) = (false, 3001)
    ∧ (∀ busyAt, (wait_busy busyAt).2 ≤ 3001)
    ∧ (∀ busyAt, reset_result busyAt = ResetOutcome.normal) := by
  refine ⟨?_, ?_, fun _ => rfl⟩
  · exact wait_busy_aux_stuck (fun _ => true) 3000 (fun _ => rfl) 3002 0
      (by omega) (by omega)
  · intro busyAt
    have hb := wait_busy_aux_exit_le busyAt 3000 3002 0
    simpa [wait_busy] using hb

/-- C5 counterexample: `display_partial` invoked immediately after
`sleep()` (i.e. from the Sleeping state) behaves exactly as it does
without the sleep and proceeds to emit its command sequence — it does not
fail with any defined error. -/
theorem C5_totality_counterexample :
    EPD42.displayPartial (EPD42.sleep ⟨0, 0⟩).1 10 (List.replicate 15000 255)
      = EPD42.displayPartial ⟨0, 0⟩ 10 (List.replicate 15000 255)
    ∧ (EPD42.displayPartial (EPD42.sleep ⟨0, 0⟩).1 10 (List.replicate 15000 255)).2 ≠ [] := by
  constructor
  · rfl
  · have hc : ¬ fullRefreshInterval ≤ (10 : Int) -
        ({ (⟨0, 0⟩ : EPDState) with partialCount := 0 + 1 }).lastFullRefresh := by
      decide
    simp only [EPD42.displayPartial, EPD42.sleep, if_neg hc,
      EPD42.partialUpdateTrace, EPD42.send_command, EPD42.send_data,
      EPD42.send_data_bulk, EPD42.set_window, EPD42.set_cursor,
      List.cons_append, List.nil_append]
    exact List.cons_ne_nil _ _

/-- C5 amended: the driver records no initialisation/sleep state at all
(`sleep` changes no recorded state), so there is no transition table:
after any history of driver operations — including the empty history
(Uninitialized) and histories ending in `sleep` (Sleeping) —
`display_partial` proceeds unconditionally and emits a nonempty command
sequence; no error result exists in the driver. -/
theorem C5_no_state_tracking (s : EPDState) (hist : List EPDOp)
    (now : Int) (buf : List Nat) :
    EPD42.displayPartial (EPD42.sleep (runOps s hist).1).1 now buf
      = EPD42.displayPartial (runOps s hist).1 now buf
    ∧ (EPD42.displayPartial (runOps s hist).1 now buf).2 ≠ [] := by
  constructor
  · rfl
  · simp only [EPD42.displayPartial]
    by_cases h : fullRefreshInterval ≤ now -
        ({ (runOps s hist).1 with
            partialCount := (runOps s hist).1.partialCount + 1 }).lastFullRefresh
    · simp [h, EPD42.init, EPD42.reset, EPD42.display, EPD42.initPartial,
        EPD42.send_command, EPD42.send_data, EPD42.send_data_bulk]
    · simp [h, EPD42.partialUpdateTrace, EPD42.send_command, EPD42.send_data]

/-- C3 (code bug): when the HTTPS server fails to start inside file-server
mode, the early `return` runs the `finally` teardown but skips the
`_resume_typewriter_display()` call after the try statement, so the mode
exits with the display still showing the instructions screen after a full
`init` + `display` — not re-initialised to the partial-refresh baseline
with the document render.  The Bluetooth-failure path and the normal path
do resume. -/
theorem C3_file_server_exit_display :
    file_server_mode ⟨true, true, false⟩
      = [DispCall.init, DispCall.displayBuf Screen.instructions]
    ∧ endsResumed (file_server_mode ⟨true, true, false⟩) = false
    ∧ endsResumed (file_server_mode ⟨true, true, true⟩) = true
    ∧ endsResumed (file_server_mode ⟨true, false, false⟩) = true := by
  decide

/-- C4 (code bug): teardown step 7 — the bridge-removal subprocess call —
is the one step of `_stop_bt_pan` with no try/except wrapper.  If it
raises, only 7 of the 8 release steps are attempted: step 8 (adapter
power-off) is skipped and the exception escapes the teardown, contrary to
the claim (and the function's own docstring) that every step is always
attempted. -/
theorem C4_teardown_aborts_on_step7 :
    (stop_bt_pan ⟨some 0, some 1, some 2, some 3, some 4, some 5, some 6⟩
        ⟨false, false, false, false, false, false, true, false⟩).2.1
      = [1, 2, 3, 4, 5, 6, 7]
    ∧ (stop_bt_pan ⟨some 0, some 1, some 2, some 3, some 4, some 5, some 6⟩
        ⟨false, false, false, false, false, false, true, false⟩).2.2.2 = true
    ∧ ((stop_bt_pan ⟨some 0, some 1, some 2, some 3, some 4, some 5, some 6⟩
        ⟨false, false, false, false, false, false, true, false⟩).2.1).length ≠ 8 := by
  decide

/-- C6 counterexample: when bridge creation fails with a nonzero exit code
(and no earlier step raised), `_start_bt_pan` unregisters the agent and
reports failure, but leaves the adapter powered, discoverable and
pairable — a secondary resource of the session contract is left alive,
contradicting the claim that every previously acquired resource is
released. -/
theorem C6_rollback_counterexample :
    start_bt_pan ⟨false, false, false, false, true, false, false⟩
      = (none, ⟨true, false, true, true, false, false, false⟩)
    ∧ secondaryAlive
        (start_bt_pan ⟨false, false, false, false, true, false, false⟩).2 = true := by
  decide

/-- C6 amended: on an acquisition failure the session entry does report
failure (returns `None`), but the rollback is partial: on a nonzero exit
code from bridge creation only the agent is unregistered (the adapter
stays powered, discoverable and pairable); on an exception from a later
step (e.g. NAP registration) the handler terminates dnsmasq if started,
removes the bridge and powers the adapter off, but leaves the agent
registered and the discoverable/pairable configuration set. -/
theorem C6_partial_rollback (env : PanEnv)
    (h1 : env.powerOnRaises = false) (h2 : env.registerAgentRaises = false)
    (h3 : env.requestDefaultRaises = false) (h4 : env.adapterConfigRaises = false) :
    (env.bridgeAddFails = true →
      start_bt_pan env = (none, ⟨true, false, true, true, false, false, false⟩))
    ∧ (env.bridgeAddFails = false → env.napRegisterRaises = true →
      start_bt_pan env = (none, ⟨false, true, true, true, false, false, false⟩)) := by
  constructor
  · intro hb
    simp [start_bt_pan, h1, h2, h3, h4, hb]
  · intro hb hn
    simp [start_bt_pan, panExceptHandler, h1, h2, h3, h4, hb, hn]

/-- Witness for C6 amended: the exception path at NAP registration. -/
theorem C6_partial_rollback_witness :
    start_bt_pan ⟨false, false, false, false, false, true, false⟩
      = (none, ⟨false, true, true, true, false, false, false⟩) :=
  (C6_partial_rollback ⟨false, false, false, false, false, true, false⟩
    rfl rfl rfl rfl).2 rfl rfl

/-- C7 counterexample: teardown never clears the session's resource
fields (the dict is never written), and a second teardown call is not a
no-op — it re-attempts all 8 release steps.  The claim's stated mechanism
(fields cleared after release, second call a per-step no-op) is false. -/
theorem C7_teardown_not_cleared :
    (stop_bt_pan ⟨some 1, some 2, some 3, some 4, some 5, some 6, some 7⟩
        ⟨false, false, false, false, false, false, false, false⟩).1
      = ⟨some 1, some 2, some 3, some 4, some 5, some 6, some 7⟩
    ∧ (stop_bt_pan ⟨some 1, some 2, some 3, some 4, some 5, some 6, some 7⟩
        ⟨false, false, false, false, false, false, false, false⟩).1.dnsmasq = some 6
    ∧ (stop_bt_pan (stop_bt_pan ⟨some 1, some 2, some 3, some 4, some 5, some 6, some 7⟩
        ⟨false, false, false, false, false, false, false, false⟩).1
        ⟨false, false, false, false, false, false, false, false⟩).2.1
      = [1, 2, 3, 4, 5, 6, 7, 8] := by
  decide

/-- C7 amended: calling teardown twice does not raise as long as the
unwrapped bridge-removal call (step 7) does not raise: the session value
is returned unchanged (no field is ever cleared), every call — first or
second — attempts all 8 release steps with individual failures swallowed,
and the second call behaves exactly as the first. -/
theorem C7_teardown_twice (st : BtState) (env : TeardownEnv)
    (h : env.bridgeDelRaises = false) :
    (stop_bt_pan st env).1 = st
    ∧ (stop_bt_pan st env).2.1 = [1, 2, 3, 4, 5, 6, 7, 8]
    ∧ (stop_bt_pan st env).2.2.2 = false
    ∧ stop_bt_pan (stop_bt_pan st env).1 env = stop_bt_pan st env := by
  refine ⟨?_, ?_, ?_, ?_⟩ <;> simp [stop_bt_pan, h]

/-- Witness for C7 amended at a concrete session value and environment in
which the NAP-unregister step raises (and is swallowed). -/
theorem C7_teardown_twice_witness :
    (stop_bt_pan ⟨some 9, some 8, some 7, some 6, some 5, some 4, some 3⟩
        ⟨false, false, true, false, false, false, false, false⟩).1
      = ⟨some 9, some 8, some 7, some 6, some 5, some 4, some 3⟩
    ∧ (stop_bt_pan ⟨some 9, some 8, some 7, some 6, some 5, some 4, some 3⟩
        ⟨false, false, true, false, false, false, false, false⟩).2.1
      = [1, 2, 3, 4, 5, 6, 7, 8]
    ∧ (stop_bt_pan ⟨some 9, some 8, some 7, some 6, some 5, some 4, some 3⟩
        ⟨false, false, true, false, false, false, false, false⟩).2.2.2 = false
    ∧ stop_bt_pan (stop_bt_pan ⟨some 9, some 8, some 7, some 6, some 5, some 4, some 3⟩
        ⟨false, false, true, false, false, false, false, false⟩).1
        ⟨false, false, true, false, false, false, false, false⟩
      = stop_bt_pan ⟨some 9, some 8, some 7, some 6, some 5, some 4, some 3⟩
        ⟨false, false, true, false, false, false, false, false⟩ :=
  C7_teardown_twice ⟨some 9, some 8, some 7, some 6, some 5, some 4, some 3⟩
    ⟨false, false, true, false, false, false, false, false⟩ rfl

/-- C9: the text-editing operations of `_handle_key` preserve
`0 <= cursor <= len(text)` (the lower bound is inherent in the
non-negative cursor, whose only decrements are guarded by `cursor > 0`);
backspace at position 0 and delete at the end leave the state unchanged,
cursor-left at 0 and cursor-right at the end leave the state unchanged,
and insertion splices the inserted characters at the cursor and advances
the cursor by their number. -/
theorem C9_handle_key_invariants (s : EditorState) (h : s.cursor ≤ s.text.length) :
    (∀ k, (handle_key s k).cursor ≤ (handle_key s k).text.length)
    ∧ (s.cursor = 0 → handle_key s EditKey.backspace = s)
    ∧ (s.cursor = s.text.length → handle_key s EditKey.delete = s)
    ∧ (s.cursor = 0 → handle_key s EditKey.left = s)
    ∧ (s.cursor = s.text.length → handle_key s EditKey.right = s)
    ∧ (∀ cs, (handle_key s (EditKey.insert cs)).text
          = s.text.take s.cursor ++ cs ++ s.text.drop s.cursor
        ∧ (handle_key s (EditKey.insert cs)).cursor = s.cursor + cs.length) := by
  refine ⟨?_, ?_, ?_, ?_, ?_, fun cs => ⟨rfl, rfl⟩⟩
  · intro k
    cases k with
    | left =>
      simp only [handle_key]
      split
      · show s.cursor - 1 ≤ s.text.length
        omega
      · exact h
    | right =>
      simp only [handle_key]
      split
      · show s.cursor + 1 ≤ s.text.length
        omega
      · exact h
    | enter =>
      show s.cursor + 1 ≤ (s.text.take s.cursor ++ '\n' :: s.text.drop s.cursor).length
      simp only [List.length_append, List.length_take, List.length_cons, List.length_drop]
      omega
    | backspace =>
      simp only [handle_key]
      split
      · show s.cursor - 1 ≤ (s.text.take (s.cursor - 1) ++ s.text.drop s.cursor).length
        simp only [List.length_append, List.length_take, List.length_drop]
        omega
      · exact h
    | delete =>
      simp only [handle_key]
      split
      · show s.cursor ≤ (s.text.take s.cursor ++ s.text.drop (s.cursor + 1)).length
        simp only [List.length_append, List.length_take, List.length_drop]
        omega
      · exact h
    | insert cs =>
      show s.cursor + cs.length
        ≤ (s.text.take s.cursor ++ cs ++ s.text.drop s.cursor).length
      simp only [List.length_append, List.length_take, List.length_drop]
      omega
  · intro h0
    simp [handle_key, h0]
  · intro hend
    simp only [handle_key]
    rw [if_neg (by omega)]
  · intro h0
    simp [handle_key, h0]
  · intro hend
    simp only [handle_key]
    rw [if_neg (by omega)]

/-- Witness for C9: the editing state with text "ab" and the cursor
between the two characters. -/
theorem C9_handle_key_invariants_witness :
    (handle_key ⟨['a', 'b'], 1, false, false⟩ EditKey.left).cursor
      ≤ (handle_key ⟨['a', 'b'], 1, false, false⟩ EditKey.left).text.length :=
  (C9_handle_key_invariants ⟨['a', 'b'], 1, false, false⟩ (by decide)).1 EditKey.left

/-- C10: for every wrap function, every text and every cursor offset,
`_wrap_with_cursor` returns a non-empty list of lines and in-range cursor
coordinates: `cursor_line < len(lines)` and
`cursor_col <= len(lines[cursor_line])` (including the empty text, text of
only newlines, and a cursor at the very end). -/
theorem C10_wrap_with_cursor_in_range (wrapFn : List Char → List (List Char))
    (text : List Char) (cursor : Nat) :
    (wrap_with_cursor wrapFn text cursor).1 ≠ []
    ∧ (wrap_with_cursor wrapFn text cursor).2.1
        < (wrap_with_cursor wrapFn text cursor).1.length
    ∧ (wrap_with_cursor wrapFn text cursor).2.2
        ≤ ((wrap_with_cursor wrapFn text cursor).1.getD
            (wrap_with_cursor wrapFn text cursor).2.1 []).length := by
  obtain ⟨hidx, hmap⟩ := procParas_ok wrapFn (splitNl text) ⟨[], [], 0, 0⟩
    ⟨rfl, fun e he => absurd he (List.not_mem_nil e)⟩
  simp only [wrap_with_cursor]
  set st := procParas wrapFn ⟨[], [], 0, 0⟩ (splitNl text) with hst
  set lines := if st.lines = [] then [[]] else st.lines with hlines
  have hne : lines ≠ [] := by
    rw [hlines]
    by_cases hsl : st.lines = [] <;> simp [hsl]
  have hlen : 0 < lines.length := List.length_pos.mpr hne
  have hlast : (lines.getLastD []).length
      ≤ (lines.getD (lines.length - 1) []).length := by
    rw [getLastD_eq_getD lines [] hne]
  by_cases hcur : text.length ≤ cursor
  · rw [if_pos hcur, if_pos hne]
    exact ⟨hne, show lines.length - 1 < lines.length by omega, hlast⟩
  · rw [if_neg hcur]
    cases hlook : lookupLast st.charToPos cursor with
    | none =>
      exact ⟨hne, show lines.length - 1 < lines.length by omega, hlast⟩
    | some lc =>
      have hmem := lookupLast_mem st.charToPos cursor lc hlook
      obtain ⟨hl1, hl2⟩ := hmap (cursor, lc.1, lc.2) hmem
      have hslne : st.lines ≠ [] := by
        intro hcon
        rw [hcon] at hl1
        simp at hl1
      have heq : lines = st.lines := by
        rw [hlines, if_neg hslne]
      refine ⟨hne, ?_, ?_⟩
      · show lc.1 < lines.length
        rw [heq]
        exact hl1
      · show lc.2 ≤ (lines.getD lc.1 []).length
        rw [heq]
        exact hl2
